import Mathlib

/-!
Shallow embedding of the agent-orchestration and task-scheduling core of the
devops-ai-platform repository (src/agents/base.py, src/agents/registry.py,
src/core/scheduler.py), together with theorems settling the frozen claims
about it.

Modelling conventions:
* Python `float` wall-clock times and durations are modelled as rationals (ℚ).
  Each operation that reads the clock takes the current time (and, for agent
  executions, the elapsed duration) as an explicit parameter; the several
  clock reads a single Python function performs within microseconds of each
  other are modelled as one instant.
* Python dictionaries are association lists; dict-assignment overwrites the
  entry in place (keeping its position) or appends a fresh key at the end,
  exactly as CPython insertion-ordered dicts do.
* Python values that can be `None`, strings, or nested dicts (context fields,
  result payloads) are modelled by the inductive `PyVal`.
* Exceptions are `Except String`: an agent subclass's `analyze`/`optimize`
  body either returns an `AgentResult` or raises, so a subclass's behaviour
  is a pair of functions into `Except String AgentResult`.
* `asyncio.wait_for`'s wall-clock timeout race in `execute_agent` and the
  semaphore bounding concurrency in `execute_all_agents` are real-time /
  scheduling constructs; none of the claims below mentions timeouts, so the
  model returns the unit's own result (the non-timeout branch).  The
  semaphore-bounded `gather` is modelled as the sequential fold over the
  snapshot of enabled agents: each gathered task touches only its own
  agent's counters, so any interleaving linearises to this fold.
-/

/-- Python value universe for context fields and result payloads: `None`,
strings, and string-keyed dicts. -/
inductive PyVal where
  | none : PyVal
  | str : String → PyVal
  | dict : List (String × PyVal) → PyVal

/-- Truth of `v is None` in Python. -/
def PyVal.isNone : PyVal → Bool
  | .none => true
  | _ => false

/-- Lookup in a Python dict modelled as an association list (`d.get(k)`). -/
def pyGet (d : List (String × PyVal)) (k : String) : Option PyVal :=
  (d.find? (fun kv => kv.1 == k)).map (·.2)

/-- Python `d.get(k, {})`: the stored value if the key is present (which may
be `None`), else the empty dict default. -/
def pyGetD (d : List (String × PyVal)) (k : String) : PyVal :=
  (pyGet d k).getD (.dict [])

/-- AgentStatus enumeration from src/agents/base.py. -/
inductive AgentStatus where
  | idle
  | running
  | error
  | disabled
deriving DecidableEq, Repr

/-- AgentContext dataclass from src/agents/base.py.  All fields are always
present on the dataclass (so Python's `hasattr` check is vacuous); fields
hold `PyVal` because the registry copies possibly-`None` dict values into
them. -/
structure AgentContext where
  infrastructure_data : PyVal
  metrics_data : PyVal
  cost_data : PyVal
  security_data : PyVal
  user_preferences : PyVal
  execution_id : PyVal
  timestamp : ℚ

/-- AgentResult dataclass from src/agents/base.py. -/
structure AgentResult where
  success : Bool
  data : PyVal
  recommendations : List PyVal
  actions : List PyVal
  error_message : Option String := Option.none
  execution_time : ℚ := 0

/-- Mutable per-unit state of BaseAgent (src/agents/base.py __init__):
lifecycle flags and running statistics. -/
structure BaseAgent where
  name : String
  status : AgentStatus
  last_execution : Option ℚ
  execution_count : ℕ
  error_count : ℕ
  enabled : Bool
  total_execution_time : ℚ
  avg_execution_time : ℚ

/-- Fresh BaseAgent state as produced by `BaseAgent.__init__`. -/
def BaseAgent.init (name : String) : BaseAgent :=
  { name := name
    status := .idle
    last_execution := Option.none
    execution_count := 0
    error_count := 0
    enabled := true
    total_execution_time := 0
    avg_execution_time := 0 }

/-- Behaviour a concrete agent subclass supplies: the `analyze` and
`optimize` bodies, each either returning a result or raising. -/
structure AgentBehavior where
  analyze : AgentContext → Except String AgentResult
  optimize : AgentContext → Except String AgentResult

/-- BaseAgent._update_performance_metrics: add the execution time to the
running total and recompute the average over `execution_count`. -/
def BaseAgent.update_performance_metrics (a : BaseAgent) (execution_time : ℚ) : BaseAgent :=
  let total := a.total_execution_time + execution_time
  { a with
    total_execution_time := total
    avg_execution_time := total / (a.execution_count : ℚ) }

/-- BaseAgent.validate_context: every required field must be present (always
true for the dataclass) and not `None`. -/
def BaseAgent.validate_context (ctx : AgentContext) : Bool :=
  !ctx.infrastructure_data.isNone && !ctx.metrics_data.isNone && !ctx.execution_id.isNone

/-- BaseAgent.execute (src/agents/base.py lines 126-191).  `t0` is the
`time.time()` read at entry and `dur` the wall-clock duration of the body,
so the later clock reads are `t0 + dur`.  Returns the result together with
the updated agent state. -/
def BaseAgent.execute (beh : AgentBehavior) (a : BaseAgent) (ctx : AgentContext)
    (t0 dur : ℚ) : AgentResult × BaseAgent :=
  if !a.enabled then
    ({ success := false
       data := .dict []
       recommendations := []
       actions := []
       error_message := some "Agent is disabled" }, a)
  else
    let a1 : BaseAgent :=
      { a with status := .running, execution_count := a.execution_count + 1 }
    let fault : String → AgentResult × BaseAgent := fun e =>
      ({ success := false
         data := .dict []
         recommendations := []
         actions := []
         error_message := some e
         execution_time := dur },
       { a1 with error_count := a1.error_count + 1, status := .error })
    match beh.analyze ctx with
    | .error e => fault e
    | .ok analysis_result =>
      match beh.optimize ctx with
      | .error e => fault e
      | .ok optimization_result =>
        let result : AgentResult :=
          { success := analysis_result.success && optimization_result.success
            data := .dict [("analysis", analysis_result.data),
                           ("optimization", optimization_result.data)]
            recommendations :=
              analysis_result.recommendations ++ optimization_result.recommendations
            actions := analysis_result.actions ++ optimization_result.actions
            execution_time := dur }
        let a2 := a1.update_performance_metrics result.execution_time
        (result, { a2 with status := .idle, last_execution := some (t0 + dur) })

/-- BaseAgent.disable: clear the enabled flag and mark the status Disabled. -/
def BaseAgent.disable (a : BaseAgent) : BaseAgent :=
  { a with enabled := false, status := .disabled }

/-- BaseAgent.enable: set the enabled flag and reset the status to Idle. -/
def BaseAgent.enable (a : BaseAgent) : BaseAgent :=
  { a with enabled := true, status := .idle }

/-- Registry entry: the unit's mutable state together with its subclass
behaviour (in Python both live on the one agent object). -/
structure Agent where
  base : BaseAgent
  behavior : AgentBehavior

/-- AgentRegistry state: the name→agent dict (src/agents/registry.py). -/
structure AgentRegistry where
  agents : List (String × Agent)

/-- AgentRegistry.get_agent: dict lookup by name. -/
def AgentRegistry.get_agent (reg : AgentRegistry) (agent_name : String) : Option Agent :=
  (reg.agents.find? (fun kv => kv.1 == agent_name)).map (·.2)

/-- In-place mutation of the agent object stored under a key (Python mutates
the object the dict points to, keeping its dict position). -/
def updateAgent (agent_name : String) (f : Agent → Agent) :
    List (String × Agent) → List (String × Agent)
  | [] => []
  | (k, v) :: rest =>
    if k == agent_name then (k, f v) :: rest
    else (k, v) :: updateAgent agent_name f rest

/-- AgentRegistry.list_enabled_agents: the enabled agent objects in dict
order. -/
def AgentRegistry.list_enabled_agents (reg : AgentRegistry) : List Agent :=
  (reg.agents.filter (fun kv => kv.2.base.enabled)).map (·.2)

/-- Context construction inside AgentRegistry.execute_agent (lines 137-145):
missing keys default to `{}`, `execution_id` is the agent name joined with
the integer epoch second. -/
def mkContext (agent_name : String) (context_data : List (String × PyVal))
    (now : ℚ) : AgentContext :=
  { infrastructure_data := pyGetD context_data "infrastructure"
    metrics_data := pyGetD context_data "metrics"
    cost_data := pyGetD context_data "cost"
    security_data := pyGetD context_data "security"
    user_preferences := pyGetD context_data "preferences"
    execution_id := .str (agent_name ++ "_" ++ toString (Int.floor now))
    timestamp := now }

/-- Failed AgentResult with empty payload, as built at each failure exit of
AgentRegistry.execute_agent. -/
def failResult (msg : String) : AgentResult :=
  { success := false
    data := .dict []
    recommendations := []
    actions := []
    error_message := some msg }

/-- AgentRegistry.execute_agent (src/agents/registry.py lines 102-179):
lookup, enabled check, context construction, validation, then the unit's own
execution.  The `asyncio.wait_for` deadline race is a real-time construct;
no claim below involves timeouts, so the model takes the branch in which the
unit's execution completes and its result is returned.  The trailing
catch-all `except` is unreachable here because `BaseAgent.execute` never
raises. -/
def AgentRegistry.execute_agent (reg : AgentRegistry) (agent_name : String)
    (context_data : List (String × PyVal)) (now dur : ℚ) :
    AgentResult × AgentRegistry :=
  match reg.get_agent agent_name with
  | Option.none =>
    (failResult ("Agent '" ++ agent_name ++ "' not found"), reg)
  | some ag =>
    if !ag.base.enabled then
      (failResult ("Agent '" ++ agent_name ++ "' is disabled"), reg)
    else
      let context := mkContext agent_name context_data now
      if !BaseAgent.validate_context context then
        (failResult "Invalid context data", reg)
      else
        let er := BaseAgent.execute ag.behavior ag.base context now dur
        (er.1, ⟨updateAgent agent_name (fun a => { a with base := er.2 }) reg.agents⟩)

/-- Sequential fold underlying execute_all_agents: each enabled agent from
the snapshot is executed via execute_agent and its (name, result) pair is
appended to the output dict; the registry (agent counters) is threaded
through.  `dur` assigns each agent its own wall-clock duration. -/
def execAllGo (context_data : List (String × PyVal)) (now : ℚ) (dur : String → ℚ) :
    List Agent → AgentRegistry → List (String × AgentResult) × AgentRegistry
  | [], reg => ([], reg)
  | ag :: rest, reg =>
    let er := reg.execute_agent ag.base.name context_data now (dur ag.base.name)
    let rs := execAllGo context_data now dur rest er.2
    ((ag.base.name, er.1) :: rs.1, rs.2)

/-- AgentRegistry.execute_all_agents (src/agents/registry.py lines 181-219):
snapshot the enabled agents, execute each, collect name→result.  The
semaphore-bounded concurrent `gather` linearises to this fold because each
task only mutates its own agent's counters; `gather(return_exceptions=True)`
can surface an exception only if execute_agent raised, which it never
does. -/
def AgentRegistry.execute_all_agents (reg : AgentRegistry)
    (context_data : List (String × PyVal)) (now : ℚ) (dur : String → ℚ) :
    List (String × AgentResult) × AgentRegistry :=
  execAllGo context_data now dur reg.list_enabled_agents reg

/-- TaskStatus enumeration from src/core/scheduler.py. -/
inductive TaskStatus where
  | pending
  | running
  | completed
  | failed
  | cancelled
deriving DecidableEq, Repr

/-- TaskPriority enumeration from src/core/scheduler.py. -/
inductive TaskPriority where
  | low
  | normal
  | high
  | critical
deriving DecidableEq, Repr

/-- ScheduledTask dataclass (src/core/scheduler.py lines 38-55).  The stored
callable and its arguments are modelled at the call site: a worker execution
is given the callable's outcome (returned value or raised message)
explicitly.  Times are UTC epoch seconds as rationals. -/
structure ScheduledTask where
  id : String
  name : String
  schedule : String
  priority : TaskPriority
  status : TaskStatus
  created_at : ℚ
  next_run : ℚ
  last_run : Option ℚ := Option.none
  result : Option PyVal := Option.none
  error : Option String := Option.none
  retry_count : ℕ := 0
  max_retries : ℕ := 3

/-- Conversion of a digit run to a number; fails on the empty run or on a
non-digit, mirroring Python `int()` on the digit part. -/
def digitsToNat : List Char → Option ℕ
  | [] => Option.none
  | cs =>
    cs.foldl
      (fun acc c =>
        acc.bind fun n => if c.isDigit then some (n * 10 + (c.toNat - 48)) else Option.none)
      (some 0)

/-- Python `int(s)` on the schedule prefix: an optional sign followed by a
non-empty digit run; anything else raises ValueError (modelled as `none`).
Python's tolerance for surrounding whitespace and interior underscores is
not modelled; no claim turns on those forms. -/
def parsePyInt (s : String) : Option ℤ :=
  match s.data with
  | [] => Option.none
  | c :: rest =>
    if c = '-' then (digitsToNat rest).map (fun n => -(n : ℤ))
    else if c = '+' then (digitsToNat rest).map (fun n => (n : ℤ))
    else (digitsToNat (c :: rest)).map (fun n => (n : ℤ))

/-- Seconds per interval-suffix unit. -/
def unitSeconds : Char → Option ℚ
  | 's' => some 1
  | 'm' => some 60
  | 'h' => some 3600
  | 'd' => some 86400
  | _ => Option.none

/-- TaskScheduler._parse_schedule (src/core/scheduler.py lines 303-326):
a string ending in one of `s|m|h|d` is `now + int(prefix) × unit`, where the
embedded `int()` call raises ValueError on a non-integer prefix; every other
string falls back to `now + 5 minutes`. -/
def parse_schedule (schedule : String) (now : ℚ) : Except String ℚ :=
  match schedule.data.getLast? with
  | some c =>
    match unitSeconds c with
    | some u =>
      match parsePyInt (String.mk schedule.data.dropLast) with
      | some v => .ok (now + (v : ℚ) * u)
      | Option.none => .error "ValueError: invalid literal for int"
    | Option.none => .ok (now + 300)
  | Option.none => .ok (now + 300)

/-- Scheduler state: the id→task table, the per-priority queues (flattened
to a list of (priority, id) pairs; a worker may dequeue any queued entry, so
this list together with the worker's free choice of entry covers every
priority-scan order), and the active-task counter. -/
structure SchedState where
  tasks : List (String × ScheduledTask)
  queued : List (TaskPriority × String)
  active_tasks : ℤ

/-- Empty scheduler state as built by TaskScheduler.__init__. -/
def SchedState.init : SchedState := ⟨[], [], 0⟩

/-- Dict assignment `self.tasks[task_id] = task`: overwrite in place if the
key exists, else append. -/
def dictSet (tasks : List (String × ScheduledTask)) (k : String)
    (t : ScheduledTask) : List (String × ScheduledTask) :=
  if tasks.any (fun kv => kv.1 == k) then
    tasks.map (fun kv => if kv.1 == k then (k, t) else kv)
  else tasks ++ [(k, t)]

/-- Lookup `self.tasks.get(task_id)`. -/
def SchedState.getTask (s : SchedState) (task_id : String) : Option ScheduledTask :=
  (s.tasks.find? (fun kv => kv.1 == task_id)).map (·.2)

/-- In-place mutation of the task object stored under an id. -/
def updateTask (task_id : String) (f : ScheduledTask → ScheduledTask) :
    List (String × ScheduledTask) → List (String × ScheduledTask)
  | [] => []
  | (k, v) :: rest =>
    if k == task_id then (k, f v) :: rest
    else (k, v) :: updateTask task_id f rest

/-- TaskScheduler.schedule_task (src/core/scheduler.py lines 127-171):
derive the id from the name and the integer epoch second, parse the
schedule (propagating the ValueError a malformed interval suffix raises),
insert a Pending task, return its id. -/
def schedule_task (s : SchedState) (name : String) (schedule : String)
    (priority : TaskPriority) (now : ℚ) : Except String (String × SchedState) :=
  let task_id := name ++ "_" ++ toString (Int.floor now)
  match parse_schedule schedule now with
  | .error e => .error e
  | .ok next_run =>
    let task : ScheduledTask :=
      { id := task_id
        name := name
        schedule := schedule
        priority := priority
        status := .pending
        created_at := now
        next_run := next_run }
    .ok (task_id, { s with tasks := dictSet s.tasks task_id task })

/-- TaskScheduler.cancel_task (lines 173-182): false if the id is unknown,
else set the stored status to Cancelled — whatever it was — and return
true. -/
def cancel_task (s : SchedState) (task_id : String) : Bool × SchedState :=
  match s.getTask task_id with
  | Option.none => (false, s)
  | some _ => (true, { s with tasks := updateTask task_id (fun t => { t with status := .cancelled }) s.tasks })

/-- A task due for dispatch: Pending and next_run ≤ now. -/
def dueAt (now : ℚ) (t : ScheduledTask) : Bool :=
  t.status == .pending && decide (t.next_run ≤ now)

/-- One pass of the scheduler loop body (src/core/scheduler.py lines
207-224): every Pending task whose next_run has arrived is pushed onto the
queue of its priority and flipped to Running; active_tasks grows by the
number dispatched. -/
def dispatch_scan (s : SchedState) (now : ℚ) : SchedState :=
  { tasks := s.tasks.map (fun kv =>
      if dueAt now kv.2 then (kv.1, { kv.2 with status := .running }) else kv)
    queued := s.queued ++ (s.tasks.filter (fun kv => dueAt now kv.2)).map
      (fun kv => (kv.2.priority, kv.1))
    active_tasks := s.active_tasks + ((s.tasks.filter (fun kv => dueAt now kv.2)).length : ℤ) }

/-- TaskScheduler._execute_task (lines 259-301) on one task record.
`outcome` is what the stored callable did: returned a value or raised.  On
success the Completed status, result and last_run are recorded, next_run is
recomputed from the schedule relative to completion time `tEnd`, and
retry_count resets; the recomputation re-runs _parse_schedule, whose
ValueError (impossible for a schedule that already parsed at creation)
would land in the same except-branch as a callable fault, after the
success-path mutations already applied.  On failure the error is recorded,
retry_count increments, and the task either terminally fails
(retry_count ≥ max_retries) or returns to Pending with next_run pushed out
by retry_count × 5 minutes. -/
def execute_task (task : ScheduledTask) (outcome : Except String PyVal)
    (tEnd : ℚ) : ScheduledTask :=
  let failBranch : ScheduledTask → String → ScheduledTask := fun t e =>
    let t1 := { t with error := some e, retry_count := t.retry_count + 1 }
    if t1.retry_count ≥ t1.max_retries then
      { t1 with status := .failed }
    else
      { t1 with status := .pending, next_run := tEnd + (t1.retry_count : ℚ) * 300 }
  match outcome with
  | .ok v =>
    let t1 := { task with status := .completed, result := some v, last_run := some tEnd }
    match parse_schedule t1.schedule tEnd with
    | .ok nr => { t1 with next_run := nr, retry_count := 0 }
    | .error e => failBranch t1 e
  | .error e => failBranch task e

/-- One worker execution (lines 232-301): a worker that dequeued the given
(priority, id) entry runs _execute_task on the stored task object and
decrements active_tasks; which queued entry a worker gets is the caller's
choice, covering every priority-scan interleaving. -/
def worker_exec (s : SchedState) (p : TaskPriority) (task_id : String)
    (outcome : Except String PyVal) (tEnd : ℚ) : SchedState :=
  if (p, task_id) ∈ s.queued then
    { tasks := updateTask task_id (fun t => execute_task t outcome tEnd) s.tasks
      queued := s.queued.erase (p, task_id)
      active_tasks := s.active_tasks - 1 }
  else s

/-! Concrete fixtures shared by several claims. -/

/-- Minimal successful AgentResult, as a concrete subclass might return. -/
def trivialResult : AgentResult :=
  { success := true, data := .dict [], recommendations := [], actions := [] }

/-- Behaviour whose two phases always return a successful result. -/
def okBehavior : AgentBehavior :=
  ⟨fun _ => .ok trivialResult, fun _ => .ok trivialResult⟩

/-- Behaviour whose `analyze` always raises. -/
def faultBehavior : AgentBehavior :=
  ⟨fun _ => .error "boom", fun _ => .ok trivialResult⟩

/-- Sample context as the registry builds it from an empty context dict. -/
def sampleCtx : AgentContext := mkContext "x" [] 0

/-- C8: on an enabled unit whose analyze and optimize both return without
fault, execute runs the two phases and returns a Result whose data is
exactly the analysis/optimization dict, whose recommendations and actions
are the two phases' lists concatenated in order, and whose success is the
conjunction of the two phases' success flags. -/
theorem execute_merges_phase_results
    (beh : AgentBehavior) (a : BaseAgent) (ctx : AgentContext) (t0 dur : ℚ)
    (ar or : AgentResult)
    (hen : a.enabled = true)
    (ha : beh.analyze ctx = .ok ar)
    (ho : beh.optimize ctx = .ok or) :
    (BaseAgent.execute beh a ctx t0 dur).1 =
      { success := ar.success && or.success
        data := .dict [("analysis", ar.data), ("optimization", or.data)]
        recommendations := ar.recommendations ++ or.recommendations
        actions := ar.actions ++ or.actions
        error_message := Option.none
        execution_time := dur } := by
  simp [BaseAgent.execute, hen, ha, ho]

/-- Witness for C8 at a concrete agent, behaviour and context. -/
theorem execute_merges_phase_results_witness :
    (BaseAgent.init "x").enabled = true ∧
    (BaseAgent.execute okBehavior (BaseAgent.init "x") sampleCtx 0 2).1 =
      { success := trivialResult.success && trivialResult.success
        data := .dict [("analysis", trivialResult.data),
                       ("optimization", trivialResult.data)]
        recommendations := trivialResult.recommendations ++ trivialResult.recommendations
        actions := trivialResult.actions ++ trivialResult.actions
        error_message := Option.none
        execution_time := 2 } :=
  ⟨rfl, execute_merges_phase_results okBehavior (BaseAgent.init "x") sampleCtx 0 2
    trivialResult trivialResult rfl rfl rfl⟩

/-- C9: executing a disabled unit — directly or through the registry — gives
a failed Result whose error message contains "disabled", and leaves the
unit's state (in particular execution_count, error_count,
total_execution_time and avg_execution_time) untouched. -/
theorem disabled_agent_execute
    (beh : AgentBehavior) (a : BaseAgent) (ctx : AgentContext) (t0 dur : ℚ)
    (hdis : a.enabled = false) :
    (BaseAgent.execute beh a ctx t0 dur).1.success = false ∧
    (BaseAgent.execute beh a ctx t0 dur).1.error_message = some "Agent is disabled" ∧
    (∃ pre post, "Agent is disabled" = pre ++ "disabled" ++ post) ∧
    (BaseAgent.execute beh a ctx t0 dur).2 = a ∧
    (∀ (reg : AgentRegistry) (n : String) (cd : List (String × PyVal)) (now d : ℚ),
      reg.get_agent n = some ⟨a, beh⟩ →
      (reg.execute_agent n cd now d).1.success = false ∧
      (reg.execute_agent n cd now d).1.error_message =
        some ("Agent '" ++ n ++ "' is disabled") ∧
      (∃ pre post, "Agent '" ++ n ++ "' is disabled" = pre ++ "disabled" ++ post) ∧
      (reg.execute_agent n cd now d).2 = reg) := by
  refine ⟨?_, ?_, ⟨"Agent is ", "", by decide⟩, ?_, ?_⟩
  · simp [BaseAgent.execute, hdis]
  · simp [BaseAgent.execute, hdis]
  · simp [BaseAgent.execute, hdis]
  · intro reg n cd now d hget
    refine ⟨?_, ?_, ⟨"Agent '" ++ n ++ "' is ", "", ?_⟩, ?_⟩
    · simp [AgentRegistry.execute_agent, hget, hdis, failResult]
    · simp [AgentRegistry.execute_agent, hget, hdis, failResult]
    · simp [String.append_assoc]
    · simp [AgentRegistry.execute_agent, hget, hdis]

/-- Witness for C9: a freshly disabled concrete agent, both directly and via
a one-agent registry. -/
theorem disabled_agent_execute_witness :
    ((BaseAgent.init "x").disable.enabled = false) ∧
    (BaseAgent.execute okBehavior (BaseAgent.init "x").disable sampleCtx 0 2).1.success
      = false ∧
    (AgentRegistry.execute_agent ⟨[("x", ⟨(BaseAgent.init "x").disable, okBehavior⟩)]⟩
        "x" [] 0 2).1.error_message = some ("Agent '" ++ "x" ++ "' is disabled") := by
  have h := disabled_agent_execute okBehavior (BaseAgent.init "x").disable sampleCtx 0 2 rfl
  exact ⟨rfl, h.1,
    (h.2.2.2.2 ⟨[("x", ⟨(BaseAgent.init "x").disable, okBehavior⟩)]⟩ "x" [] 0 2 rfl).2.1⟩

/-- Lookup after an in-place update of the agent stored under the same key. -/
theorem get_agent_updateAgent (n : String) (f : Agent → Agent) (l : List (String × Agent)) :
    AgentRegistry.get_agent ⟨updateAgent n f l⟩ n = (AgentRegistry.get_agent ⟨l⟩ n).map f := by
  induction l with
  | nil => rfl
  | cons kv rest ih =>
    obtain ⟨k, v⟩ := kv
    by_cases hk : k = n
    · subst hk
      simp [AgentRegistry.get_agent, updateAgent, List.find?]
    · have hkb : (k == n) = false := by simp [hk]
      simpa [AgentRegistry.get_agent, updateAgent, List.find?, hkb] using ih

/-- Unit-level fault conversion: with the unit enabled, a fault in either
phase yields a failed result carrying the fault message, bumps error_count
and sets the status to Error. -/
theorem execute_fault_aux
    (beh : AgentBehavior) (a : BaseAgent) (ctx : AgentContext) (t0 dur : ℚ) (e : String)
    (hen : a.enabled = true)
    (hfault : beh.analyze ctx = .error e ∨
      ∃ r, beh.analyze ctx = .ok r ∧ beh.optimize ctx = .error e) :
    (BaseAgent.execute beh a ctx t0 dur).1.success = false ∧
    (BaseAgent.execute beh a ctx t0 dur).1.error_message = some e ∧
    (BaseAgent.execute beh a ctx t0 dur).2.error_count = a.error_count + 1 ∧
    (BaseAgent.execute beh a ctx t0 dur).2.status = .error ∧
    (BaseAgent.execute beh a ctx t0 dur).2.execution_count = a.execution_count + 1 := by
  rcases hfault with h | ⟨r, h1, h2⟩
  · simp [BaseAgent.execute, hen, h]
  · simp [BaseAgent.execute, hen, h1, h2]

/-- C7: a fault raised inside analyze or optimize is caught at the unit
boundary and converted to a failed Result carrying the fault's message,
error_count is incremented and the status becomes Error; through the
registry, execute_agent likewise returns that failed Result as a value (it
is a total function into AgentResult) and records the incremented
error_count on the stored agent. -/
theorem agent_fault_isolated
    (beh : AgentBehavior) (a : BaseAgent) (ctx : AgentContext) (t0 dur : ℚ) (e : String)
    (hen : a.enabled = true)
    (hfault : beh.analyze ctx = .error e ∨
      ∃ r, beh.analyze ctx = .ok r ∧ beh.optimize ctx = .error e) :
    ((BaseAgent.execute beh a ctx t0 dur).1.success = false ∧
     (BaseAgent.execute beh a ctx t0 dur).1.error_message = some e ∧
     (BaseAgent.execute beh a ctx t0 dur).2.error_count = a.error_count + 1 ∧
     (BaseAgent.execute beh a ctx t0 dur).2.status = .error) ∧
    (∀ (reg : AgentRegistry) (n : String) (cd : List (String × PyVal)) (now d : ℚ)
       (e' : String),
      reg.get_agent n = some ⟨a, beh⟩ →
      BaseAgent.validate_context (mkContext n cd now) = true →
      (beh.analyze (mkContext n cd now) = .error e' ∨
        ∃ r, beh.analyze (mkContext n cd now) = .ok r ∧
          beh.optimize (mkContext n cd now) = .error e') →
      (reg.execute_agent n cd now d).1.success = false ∧
      (reg.execute_agent n cd now d).1.error_message = some e' ∧
      ∃ ag', (reg.execute_agent n cd now d).2.get_agent n = some ag' ∧
        ag'.behavior = beh ∧
        ag'.base.error_count = a.error_count + 1 ∧
        ag'.base.status = .error) := by
  have hu := execute_fault_aux beh a ctx t0 dur e hen hfault
  refine ⟨⟨hu.1, hu.2.1, hu.2.2.1, hu.2.2.2.1⟩, ?_⟩
  intro reg n cd now d e' hget hv hfault'
  have hu' := execute_fault_aux beh a (mkContext n cd now) now d e' hen hfault'
  have hexec : reg.execute_agent n cd now d =
      ((BaseAgent.execute beh a (mkContext n cd now) now d).1,
       ⟨updateAgent n (fun x => { x with
          base := (BaseAgent.execute beh a (mkContext n cd now) now d).2 }) reg.agents⟩) := by
    simp [AgentRegistry.execute_agent, hget, hen, hv]
  refine ⟨by rw [hexec]; exact hu'.1, by rw [hexec]; exact hu'.2.1, ?_⟩
  refine ⟨⟨(BaseAgent.execute beh a (mkContext n cd now) now d).2, beh⟩, ?_, rfl,
    hu'.2.2.1, hu'.2.2.2.1⟩
  rw [hexec]
  show AgentRegistry.get_agent ⟨updateAgent n _ reg.agents⟩ n = _
  rw [get_agent_updateAgent, hget]
  rfl

/-- Witness for C7: a concrete one-agent registry whose agent's analyze
always raises. -/
theorem agent_fault_isolated_witness :
    ((BaseAgent.execute faultBehavior (BaseAgent.init "x") sampleCtx 0 2).1.success = false ∧
     (BaseAgent.execute faultBehavior (BaseAgent.init "x") sampleCtx 0 2).1.error_message =
       some "boom") ∧
    (AgentRegistry.execute_agent ⟨[("x", ⟨BaseAgent.init "x", faultBehavior⟩)]⟩
        "x" [] 0 2).1.error_message = some "boom" := by
  have h := agent_fault_isolated faultBehavior (BaseAgent.init "x") sampleCtx 0 2 "boom"
    rfl (Or.inl rfl)
  exact ⟨⟨h.1.1, h.1.2.1⟩,
    (h.2 ⟨[("x", ⟨BaseAgent.init "x", faultBehavior⟩)]⟩ "x" [] 0 2 "boom" rfl rfl
      (Or.inl rfl)).2.1⟩

/-- Running statistics after a successful execute call: execution_count and
total_execution_time advance and the average is recomputed over them. -/
theorem exec_success_stats
    (beh : AgentBehavior) (a : BaseAgent) (ctx : AgentContext) (t0 dur : ℚ)
    (ar or : AgentResult)
    (hen : a.enabled = true)
    (ha : beh.analyze ctx = .ok ar)
    (ho : beh.optimize ctx = .ok or) :
    (BaseAgent.execute beh a ctx t0 dur).2.execution_count = a.execution_count + 1 ∧
    (BaseAgent.execute beh a ctx t0 dur).2.total_execution_time =
      a.total_execution_time + dur ∧
    (BaseAgent.execute beh a ctx t0 dur).2.avg_execution_time =
      (BaseAgent.execute beh a ctx t0 dur).2.total_execution_time /
        ((BaseAgent.execute beh a ctx t0 dur).2.execution_count : ℚ) ∧
    (BaseAgent.execute beh a ctx t0 dur).2.enabled = a.enabled := by
  simp [BaseAgent.execute, hen, ha, ho, BaseAgent.update_performance_metrics]

/-- Iterated execute calls on one unit with the given wall-clock durations
(the start instants are irrelevant to the statistics). -/
def runCalls (beh : AgentBehavior) (ctx : AgentContext) :
    BaseAgent → List ℚ → BaseAgent
  | a, [] => a
  | a, d :: ds => runCalls beh ctx (BaseAgent.execute beh a ctx 0 d).2 ds

/-- Statistics accumulated by a run of successful calls. -/
theorem runCalls_stats (beh : AgentBehavior) (ctx : AgentContext)
    (hbeh : ∀ c, ∃ r1 r2, beh.analyze c = .ok r1 ∧ beh.optimize c = .ok r2) :
    ∀ (durs : List ℚ) (a : BaseAgent), a.enabled = true →
      (runCalls beh ctx a durs).enabled = true ∧
      (runCalls beh ctx a durs).execution_count = a.execution_count + durs.length ∧
      (runCalls beh ctx a durs).total_execution_time =
        a.total_execution_time + durs.sum ∧
      (durs ≠ [] → (runCalls beh ctx a durs).avg_execution_time =
        (runCalls beh ctx a durs).total_execution_time /
          ((runCalls beh ctx a durs).execution_count : ℚ)) := by
  intro durs
  induction durs with
  | nil => intro a hen; exact ⟨hen, by simp [runCalls], by simp [runCalls], by simp⟩
  | cons d ds ih =>
    intro a hen
    obtain ⟨r1, r2, h1, h2⟩ := hbeh ctx
    have hs := exec_success_stats beh a ctx 0 d r1 r2 hen h1 h2
    have hen' : (BaseAgent.execute beh a ctx 0 d).2.enabled = true := by
      rw [hs.2.2.2]; exact hen
    have hih := ih (BaseAgent.execute beh a ctx 0 d).2 hen'
    refine ⟨hih.1, ?_, ?_, ?_⟩
    · show (runCalls beh ctx (BaseAgent.execute beh a ctx 0 d).2 ds).execution_count = _
      rw [hih.2.1, hs.1]
      simp [List.length_cons]
      omega
    · show (runCalls beh ctx (BaseAgent.execute beh a ctx 0 d).2 ds).total_execution_time = _
      rw [hih.2.2.1, hs.2.1]
      simp [List.sum_cons]
      ring
    · intro _
      cases ds with
      | nil =>
        show (BaseAgent.execute beh a ctx 0 d).2.avg_execution_time = _
        exact hs.2.2.1
      | cons d2 ds2 => exact hih.2.2.2 (by simp)

/-- Counterexample to C4: one successful call of duration 2 followed by one
faulting call leaves execution_count = 2 but total_execution_time = 2 and
avg_execution_time = 2 ≠ 2/2, because the fault path increments the counter
without calling _update_performance_metrics. -/
theorem avg_metrics_counterexample :
    (BaseAgent.execute faultBehavior
        (BaseAgent.execute okBehavior (BaseAgent.init "x") sampleCtx 0 2).2
        sampleCtx 2 1).2.execution_count = 2 ∧
    (BaseAgent.execute faultBehavior
        (BaseAgent.execute okBehavior (BaseAgent.init "x") sampleCtx 0 2).2
        sampleCtx 2 1).2.total_execution_time = 2 ∧
    (BaseAgent.execute faultBehavior
        (BaseAgent.execute okBehavior (BaseAgent.init "x") sampleCtx 0 2).2
        sampleCtx 2 1).2.avg_execution_time = 2 ∧
    ¬ (BaseAgent.execute faultBehavior
        (BaseAgent.execute okBehavior (BaseAgent.init "x") sampleCtx 0 2).2
        sampleCtx 2 1).2.avg_execution_time =
      (BaseAgent.execute faultBehavior
        (BaseAgent.execute okBehavior (BaseAgent.init "x") sampleCtx 0 2).2
        sampleCtx 2 1).2.total_execution_time /
      ((BaseAgent.execute faultBehavior
        (BaseAgent.execute okBehavior (BaseAgent.init "x") sampleCtx 0 2).2
        sampleCtx 2 1).2.execution_count : ℚ) := by
  refine ⟨?_, ?_, ?_, ?_⟩ <;>
    simp [BaseAgent.execute, okBehavior, faultBehavior, trivialResult, BaseAgent.init,
      BaseAgent.update_performance_metrics, sampleCtx]

/-- C4 (amended): a successful execute call updates execution_count and
total_execution_time and recomputes avg_execution_time (so the ratio
invariant holds after it); a faulting call increments execution_count but
leaves total_execution_time and avg_execution_time unchanged; consequently
after k calls that all succeed with durations d1..dk starting from zeroed
statistics, avg_execution_time = (d1+...+dk)/k. -/
theorem avg_metrics_amended :
    (∀ (beh : AgentBehavior) (a : BaseAgent) (ctx : AgentContext) (t0 dur : ℚ)
       (ar or : AgentResult), a.enabled = true →
      beh.analyze ctx = .ok ar → beh.optimize ctx = .ok or →
      (BaseAgent.execute beh a ctx t0 dur).2.execution_count = a.execution_count + 1 ∧
      (BaseAgent.execute beh a ctx t0 dur).2.total_execution_time =
        a.total_execution_time + dur ∧
      (BaseAgent.execute beh a ctx t0 dur).2.avg_execution_time =
        (BaseAgent.execute beh a ctx t0 dur).2.total_execution_time /
          ((BaseAgent.execute beh a ctx t0 dur).2.execution_count : ℚ)) ∧
    (∀ (beh : AgentBehavior) (a : BaseAgent) (ctx : AgentContext) (t0 dur : ℚ)
       (e : String), a.enabled = true →
      (beh.analyze ctx = .error e ∨
        ∃ r, beh.analyze ctx = .ok r ∧ beh.optimize ctx = .error e) →
      (BaseAgent.execute beh a ctx t0 dur).2.execution_count = a.execution_count + 1 ∧
      (BaseAgent.execute beh a ctx t0 dur).2.total_execution_time =
        a.total_execution_time ∧
      (BaseAgent.execute beh a ctx t0 dur).2.avg_execution_time =
        a.avg_execution_time) ∧
    (∀ (beh : AgentBehavior) (ctx : AgentContext),
      (∀ c, ∃ r1 r2, beh.analyze c = .ok r1 ∧ beh.optimize c = .ok r2) →
      ∀ (durs : List ℚ) (a : BaseAgent), a.enabled = true →
        a.execution_count = 0 → a.total_execution_time = 0 → durs ≠ [] →
        (runCalls beh ctx a durs).avg_execution_time =
          durs.sum / (durs.length : ℚ)) := by
  refine ⟨?_, ?_, ?_⟩
  · intro beh a ctx t0 dur ar or hen ha ho
    have h := exec_success_stats beh a ctx t0 dur ar or hen ha ho
    exact ⟨h.1, h.2.1, h.2.2.1⟩
  · intro beh a ctx t0 dur e hen hfault
    rcases hfault with h | ⟨r, h1, h2⟩
    · simp [BaseAgent.execute, hen, h]
    · simp [BaseAgent.execute, hen, h1, h2]
  · intro beh ctx hbeh durs a hen hc ht hne
    have h := runCalls_stats beh ctx hbeh durs a hen
    rw [h.2.2.2 hne, h.2.2.1, h.2.1, hc, ht]
    simp

/-- Witness for C4's amended statement at concrete agents and durations. -/
theorem avg_metrics_amended_witness :
    ((BaseAgent.execute okBehavior (BaseAgent.init "x") sampleCtx 0 2).2.execution_count
        = (BaseAgent.init "x").execution_count + 1) ∧
    ((BaseAgent.execute faultBehavior (BaseAgent.init "x") sampleCtx 0 2).2.avg_execution_time
        = (BaseAgent.init "x").avg_execution_time) ∧
    (runCalls okBehavior sampleCtx (BaseAgent.init "x") [2, 4]).avg_execution_time =
      ([2, 4] : List ℚ).sum / (([2, 4] : List ℚ).length : ℚ) := by
  have h := avg_metrics_amended
  exact ⟨(h.1 okBehavior (BaseAgent.init "x") sampleCtx 0 2 trivialResult trivialResult
            rfl rfl rfl).1,
         (h.2.1 faultBehavior (BaseAgent.init "x") sampleCtx 0 2 "boom" rfl
            (Or.inl rfl)).2.2,
         h.2.2 okBehavior sampleCtx (fun _ => ⟨trivialResult, trivialResult, rfl, rfl⟩)
           [2, 4] (BaseAgent.init "x") rfl rfl rfl (by simp)⟩

/-- Counterexample to C2: a context dictionary missing both required keys
entirely is accepted — the registry substitutes empty dicts, validation
passes, and the agent's analyze/optimize run to a successful result with
execution_count incremented, instead of failing fast with InvalidContext. -/
theorem invalid_context_counterexample :
    (AgentRegistry.execute_agent ⟨[("x", ⟨BaseAgent.init "x", okBehavior⟩)]⟩
        "x" [] 0 2).1.success = true ∧
    (AgentRegistry.execute_agent ⟨[("x", ⟨BaseAgent.init "x", okBehavior⟩)]⟩
        "x" [] 0 2).1.error_message = Option.none ∧
    ((AgentRegistry.execute_agent ⟨[("x", ⟨BaseAgent.init "x", okBehavior⟩)]⟩
        "x" [] 0 2).2.get_agent "x").map (fun a => a.base.execution_count) = some 1 := by
  refine ⟨?_, ?_, ?_⟩ <;>
    simp [AgentRegistry.execute_agent, AgentRegistry.get_agent, BaseAgent.execute,
      BaseAgent.validate_context, mkContext, pyGetD, pyGet, PyVal.isNone, okBehavior,
      trivialResult, BaseAgent.init, BaseAgent.update_performance_metrics, updateAgent,
      List.find?, failResult]

/-- C2 (amended): execute_agent fails fast with the InvalidContext failed
Result — before the unit runs and with the registry state untouched — only
when a required context key (`infrastructure` or `metrics`) is present and
explicitly maps to None; a merely missing key defaults to an empty dict and
passes validation. -/
theorem invalid_context_amended
    (reg : AgentRegistry) (n : String) (cd : List (String × PyVal)) (now d : ℚ)
    (ag : Agent)
    (hget : reg.get_agent n = some ag)
    (hen : ag.base.enabled = true)
    (hnone : (pyGetD cd "infrastructure").isNone = true ∨
      (pyGetD cd "metrics").isNone = true) :
    (reg.execute_agent n cd now d).1 = failResult "Invalid context data" ∧
    (reg.execute_agent n cd now d).2 = reg := by
  have hv : BaseAgent.validate_context (mkContext n cd now) = false := by
    rcases hnone with h | h <;>
      simp [BaseAgent.validate_context, mkContext, h]
  constructor <;> simp [AgentRegistry.execute_agent, hget, hen, hv]

/-- Witness for C2's amended statement: the `infrastructure` key explicitly
set to None is rejected with the InvalidContext result and no execution. -/
theorem invalid_context_amended_witness :
    (AgentRegistry.execute_agent ⟨[("x", ⟨BaseAgent.init "x", okBehavior⟩)]⟩
        "x" [("infrastructure", PyVal.none)] 0 2).1 = failResult "Invalid context data" ∧
    (AgentRegistry.execute_agent ⟨[("x", ⟨BaseAgent.init "x", okBehavior⟩)]⟩
        "x" [("infrastructure", PyVal.none)] 0 2).2 =
      ⟨[("x", ⟨BaseAgent.init "x", okBehavior⟩)]⟩ :=
  invalid_context_amended ⟨[("x", ⟨BaseAgent.init "x", okBehavior⟩)]⟩ "x"
    [("infrastructure", PyVal.none)] 0 2 ⟨BaseAgent.init "x", okBehavior⟩ rfl rfl
    (Or.inl rfl)

/-- Concrete running task two failures into its default retry budget. -/
def ctask3 : ScheduledTask :=
  { id := "t_0", name := "t", schedule := "300s", priority := .normal,
    status := .running, created_at := 0, next_run := 0, retry_count := 2 }

/-- Concrete running task with a fresh retry budget. -/
def ctaskW : ScheduledTask :=
  { id := "w_0", name := "w", schedule := "300s", priority := .normal,
    status := .running, created_at := 0, next_run := 0 }

/-- Concrete terminally failed task. -/
def failedTask : ScheduledTask :=
  { id := "f", name := "f", schedule := "300s", priority := .normal,
    status := .failed, created_at := 0, next_run := 0 }

/-- Every queue entry after a dispatch scan was either already queued or
stems from a task that was Pending at scan time. -/
theorem queued_provenance (s : SchedState) (now : ℚ) :
    ∀ q ∈ (dispatch_scan s now).queued,
      q ∈ s.queued ∨ ∃ kv ∈ s.tasks, kv.2.status = .pending ∧ q = (kv.2.priority, kv.1) := by
  intro q hq
  simp only [dispatch_scan, List.mem_append, List.mem_map, List.mem_filter] at hq
  rcases hq with h | ⟨kv, ⟨hmem, hdue⟩, hval⟩
  · exact Or.inl h
  · right
    refine ⟨kv, hmem, ?_, hval.symm⟩
    have := (Bool.and_eq_true _ _).mp hdue
    simpa [dueAt] using this.1

/-- A task that is not due keeps its record unchanged through a dispatch
scan. -/
theorem dispatch_keeps_not_due (s : SchedState) (now : ℚ) (kv : String × ScheduledTask)
    (hmem : kv ∈ s.tasks) (hnd : dueAt now kv.2 = false) :
    kv ∈ (dispatch_scan s now).tasks := by
  have h := List.mem_map_of_mem
    (fun kv : String × ScheduledTask =>
      if dueAt now kv.2 then (kv.1, { kv.2 with status := .running }) else kv) hmem
  simpa [dispatch_scan, hnd] using h

/-- Counterexample to C3: after its third failure the task's status is the
terminal Failed with retry_count = 3 = max_retries, although
retry_count > max_retries is false — the code tests `>=`, not `>`. -/
theorem retry_terminal_counterexample :
    ctask3.max_retries = 3 ∧ ctask3.retry_count = 2 ∧
    (execute_task ctask3 (.error "boom") 100).retry_count = 3 ∧
    (execute_task ctask3 (.error "boom") 100).status = .failed ∧
    ¬ ((execute_task ctask3 (.error "boom") 100).retry_count >
        (execute_task ctask3 (.error "boom") 100).max_retries) := by
  refine ⟨rfl, rfl, ?_, ?_, ?_⟩ <;> simp [execute_task, ctask3]

/-- C3 (amended): each failed execution increments retry_count; while the
incremented retry_count is still below max_retries the job returns to
Pending with next_run = completion time + retry_count × 5 minutes (linear
backoff); the status becomes the terminal Failed as soon as
retry_count ≥ max_retries (default 3, i.e. on the max_retries-th failure),
after which a dispatch scan leaves the record unchanged and only
still-Pending tasks are ever newly enqueued. -/
theorem retry_backoff_amended (task : ScheduledTask) (e : String) (tEnd : ℚ) :
    (execute_task task (.error e) tEnd).retry_count = task.retry_count + 1 ∧
    (task.retry_count + 1 < task.max_retries →
      (execute_task task (.error e) tEnd).status = .pending ∧
      (execute_task task (.error e) tEnd).next_run =
        tEnd + ((task.retry_count + 1 : ℕ) : ℚ) * 300) ∧
    (task.retry_count + 1 ≥ task.max_retries →
      (execute_task task (.error e) tEnd).status = .failed) ∧
    (∀ (s : SchedState) (now : ℚ) (kv : String × ScheduledTask),
      kv ∈ s.tasks → kv.2.status = .failed →
      kv ∈ (dispatch_scan s now).tasks ∧
      ∀ q ∈ (dispatch_scan s now).queued,
        q ∈ s.queued ∨ ∃ kv2 ∈ s.tasks, kv2.2.status = .pending ∧
          q = (kv2.2.priority, kv2.1)) := by
  refine ⟨by simp [execute_task]; split <;> rfl, ?_, ?_, ?_⟩
  · intro h
    have hlt : ¬ (task.retry_count + 1 ≥ task.max_retries) := by omega
    simp [execute_task, hlt]
  · intro h
    simp [execute_task, h]
  · intro s now kv hmem hfail
    have hnd : dueAt now kv.2 = false := by simp [dueAt, hfail]
    exact ⟨dispatch_keeps_not_due s now kv hmem hnd, queued_provenance s now⟩

/-- Witness for C3's amended statement: a first failure backs off five
minutes, the third failure is terminal, and a failed task survives a
dispatch scan unchanged. -/
theorem retry_backoff_amended_witness :
    (execute_task ctaskW (.error "boom") 10).retry_count = 1 ∧
    (execute_task ctaskW (.error "boom") 10).status = .pending ∧
    (execute_task ctaskW (.error "boom") 10).next_run =
      10 + ((ctaskW.retry_count + 1 : ℕ) : ℚ) * 300 ∧
    (execute_task ctask3 (.error "boom") 100).status = .failed ∧
    ("f", failedTask) ∈ (dispatch_scan ⟨[("f", failedTask)], [], 0⟩ 0).tasks := by
  have h1 := retry_backoff_amended ctaskW "boom" 10
  have h2 := retry_backoff_amended ctask3 "boom" 100
  have hlt : ctaskW.retry_count + 1 < ctaskW.max_retries := by decide
  have hge : ctask3.retry_count + 1 ≥ ctask3.max_retries := by decide
  exact ⟨h1.1, (h1.2.1 hlt).1, (h1.2.1 hlt).2, h2.2.2.1 hge,
    (h1.2.2.2 ⟨[("f", failedTask)], [], 0⟩ 0 ("f", failedTask) (by simp) rfl).1⟩

/-- Overwriting assignment on a dict that already holds the key keeps the
key findable with the new value. -/
theorem find_map_set (k : String) (t : ScheduledTask) :
    ∀ l : List (String × ScheduledTask), l.any (fun kv => kv.1 == k) = true →
    (l.map (fun kv => if kv.1 == k then (k, t) else kv)).find?
      (fun kv => kv.1 == k) = some (k, t)
  | [], h => by simp at h
  | kv :: rest, h => by
    by_cases hk : kv.1 = k
    · simp [List.find?, hk]
    · have hkb : (kv.1 == k) = false := by simp [hk]
      have hrest : rest.any (fun kv => kv.1 == k) = true := by
        simpa [List.any_cons, hkb] using h
      simpa [List.find?, hkb] using find_map_set k t rest hrest

/-- Appending a fresh key to a dict that lacks it makes the key findable
with the appended value. -/
theorem find_append_set (k : String) (t : ScheduledTask) :
    ∀ l : List (String × ScheduledTask), l.any (fun kv => kv.1 == k) = false →
    (l ++ [(k, t)]).find? (fun kv => kv.1 == k) = some (k, t)
  | [], _ => by simp [List.find?]
  | kv :: rest, h => by
    rw [List.any_cons] at h
    have h2 := Bool.or_eq_false_iff.mp h
    simpa [List.find?, h2.1] using find_append_set k t rest h2.2

/-- Dict assignment makes the assigned key map to the assigned task. -/
theorem find_dictSet (k : String) (t : ScheduledTask)
    (l : List (String × ScheduledTask)) :
    (dictSet l k t).find? (fun kv => kv.1 == k) = some (k, t) := by
  cases h : l.any (fun kv => kv.1 == k) with
  | true => simpa [dictSet, h] using find_map_set k t l h
  | false => simpa [dictSet, h] using find_append_set k t l h

/-- Lookup after dict assignment of a task under a key. -/
theorem getTask_dictSet (s : SchedState) (k : String) (t : ScheduledTask) :
    SchedState.getTask { s with tasks := dictSet s.tasks k t } k = some t := by
  simp [SchedState.getTask, find_dictSet]

/-- Counterexample to C5: the schedule string "foos" ends in the interval
suffix `s` but its prefix is not an integer, so parsing raises (the
embedded `int()` ValueError) instead of being accepted with the 5-minute
fallback, and schedule_task propagates the failure. -/
theorem schedule_parse_counterexample :
    parse_schedule "foos" 0 = .error "ValueError: invalid literal for int" ∧
    schedule_task SchedState.init "j" "foos" .normal 0 =
      .error "ValueError: invalid literal for int" :=
  ⟨rfl, rfl⟩

/-- C5 (amended): a schedule string that is an integer followed by one of
s|m|h|d resolves to now + that duration; a string not ending in one of
those letters (the empty string included) is accepted and resolves to
now + 5 minutes; but a string that ends in one of those letters with a
non-integer prefix makes parsing raise ValueError, so it is not accepted.
A job scheduled with "300s" has next_run = created_at + 300s immediately,
and a successful run completing at time T sets next_run = T + 300s. -/
theorem schedule_spec_amended :
    (∀ (s : String) (now : ℚ) (c : Char) (u : ℚ) (v : ℤ),
      s.data.getLast? = some c → unitSeconds c = some u →
      parsePyInt (String.mk s.data.dropLast) = some v →
      parse_schedule s now = .ok (now + (v : ℚ) * u)) ∧
    (∀ (s : String) (now : ℚ) (c : Char),
      s.data.getLast? = some c → unitSeconds c = Option.none →
      parse_schedule s now = .ok (now + 300)) ∧
    (∀ now : ℚ, parse_schedule "" now = .ok (now + 300)) ∧
    (∀ (s : String) (now : ℚ) (c : Char) (u : ℚ),
      s.data.getLast? = some c → unitSeconds c = some u →
      parsePyInt (String.mk s.data.dropLast) = Option.none →
      parse_schedule s now = .error "ValueError: invalid literal for int") ∧
    (∀ (st : SchedState) (name : String) (p : TaskPriority) (now : ℚ),
      ∃ s2, schedule_task st name "300s" p now =
        .ok (name ++ "_" ++ toString (Int.floor now), s2) ∧
        (s2.getTask (name ++ "_" ++ toString (Int.floor now))).map
          (fun t => (t.created_at, t.next_run, t.status)) =
          some (now, now + 300, .pending)) ∧
    (∀ (task : ScheduledTask) (v : PyVal) (tEnd : ℚ), task.schedule = "300s" →
      (execute_task task (.ok v) tEnd).next_run = tEnd + 300 ∧
      (execute_task task (.ok v) tEnd).status = .completed ∧
      (execute_task task (.ok v) tEnd).retry_count = 0 ∧
      (execute_task task (.ok v) tEnd).last_run = some tEnd) := by
  have h300 : ∀ now : ℚ, parse_schedule "300s" now = .ok (now + 300) := by
    intro now
    have h : parse_schedule "300s" now = .ok (now + ((300 : ℤ) : ℚ) * 1) := rfl
    rw [h]
    norm_num
  refine ⟨?_, ?_, fun _ => rfl, ?_, ?_, ?_⟩
  · intro s now c u v h1 h2 h3
    simp [parse_schedule, h1, h2, h3]
  · intro s now c h1 h2
    simp [parse_schedule, h1, h2]
  · intro s now c u h1 h2 h3
    simp [parse_schedule, h1, h2, h3]
  · intro st name p now
    refine ⟨{ st with tasks := (dictSet st.tasks (name ++ "_" ++ toString (Int.floor now))
        ({ id := name ++ "_" ++ toString (Int.floor now), name := name, schedule := "300s",
           priority := p, status := .pending, created_at := now,
           next_run := now + 300 } : ScheduledTask)) }, ?_, ?_⟩
    · simp [schedule_task, h300]
    · rw [getTask_dictSet]
      rfl
  · intro task v tEnd hsched
    refine ⟨?_, ?_, ?_, ?_⟩ <;> simp [execute_task, hsched, h300]

/-- Witness for C5's amended statement, at the concrete schedule strings
"42m", a cron-like string, the empty string, the malformed "foos", and a
"300s" job scheduled at t = 100 and completing at T = 400. -/
theorem schedule_spec_amended_witness :
    parse_schedule "42m" 7 = .ok (7 + ((42 : ℤ) : ℚ) * 60) ∧
    parse_schedule "*/5 * * * *" 3 = .ok (3 + 300) ∧
    parse_schedule "" 9 = .ok (9 + 300) ∧
    parse_schedule "foos" 1 = .error "ValueError: invalid literal for int" ∧
    (∃ s2, schedule_task SchedState.init "health_check" "300s" .normal 100 =
        .ok ("health_check" ++ "_" ++ toString (Int.floor (100 : ℚ)), s2) ∧
      (s2.getTask ("health_check" ++ "_" ++ toString (Int.floor (100 : ℚ)))).map
        (fun t => (t.created_at, t.next_run, t.status)) =
        some (100, 100 + 300, .pending)) ∧
    (execute_task ctaskW (.ok (PyVal.dict [])) 400).next_run = 400 + 300 ∧
    (execute_task ctaskW (.ok (PyVal.dict [])) 400).status = .completed := by
  have h := schedule_spec_amended
  exact ⟨h.1 "42m" 7 'm' 60 42 rfl rfl rfl,
    h.2.1 "*/5 * * * *" 3 '*' rfl rfl,
    h.2.2.1 9,
    h.2.2.2.1 "foos" 1 's' 1 rfl rfl rfl,
    h.2.2.2.2.1 SchedState.init "health_check" .normal 100,
    (h.2.2.2.2.2 ctaskW (PyVal.dict []) 400 rfl).1,
    (h.2.2.2.2.2 ctaskW (PyVal.dict []) 400 rfl).2.1⟩

/-- Snapshot dict built by TaskScheduler.get_task_status (lines 184-201);
note it does not expose the schedule string. -/
structure TaskSnapshot where
  id : String
  name : String
  status : TaskStatus
  priority : TaskPriority
  created_at : ℚ
  next_run : ℚ
  last_run : Option ℚ
  retry_count : ℕ
  result : Option PyVal
  error : Option String

/-- Projection of a stored task to its status snapshot. -/
def toSnapshot (t : ScheduledTask) : TaskSnapshot :=
  { id := t.id, name := t.name, status := t.status, priority := t.priority,
    created_at := t.created_at, next_run := t.next_run, last_run := t.last_run,
    retry_count := t.retry_count, result := t.result, error := t.error }

/-- TaskScheduler.get_task_status: None for an unknown id, else the
snapshot. -/
def get_task_status (s : SchedState) (task_id : String) : Option TaskSnapshot :=
  (s.getTask task_id).map toSnapshot

/-- TaskScheduler.list_tasks: the snapshot of every stored id. -/
def list_tasks (s : SchedState) : List (Option TaskSnapshot) :=
  s.tasks.map (fun kv => get_task_status s kv.1)

/-- Job table after the first colliding schedule_task call. -/
def collideS1 : SchedState :=
  { tasks := [("job_5",
      { id := "job_5", name := "job", schedule := "10s", priority := .normal,
        status := .pending, created_at := 5, next_run := 5 + ((10 : ℤ) : ℚ) * 1 })],
    queued := [], active_tasks := 0 }

/-- Job table after the second colliding schedule_task call overwrote the
first record. -/
def collideS2 : SchedState :=
  { tasks := [("job_5",
      { id := "job_5", name := "job", schedule := "20s", priority := .normal,
        status := .pending, created_at := 5, next_run := 5 + ((20 : ℤ) : ℚ) * 1 })],
    queued := [], active_tasks := 0 }

/-- C10: two schedule_task calls with the same name within the same epoch
second return the same id "job_5"; the second insertion overwrites the
first record (the table still holds one entry), and afterwards
get_task_status/list_tasks only show the second job (next_run 25, not the
first job's 15). -/
theorem job_id_collision :
    schedule_task SchedState.init "job" "10s" .normal 5 = .ok ("job_5", collideS1) ∧
    schedule_task collideS1 "job" "20s" .normal 5 = .ok ("job_5", collideS2) ∧
    (get_task_status collideS1 "job_5").map (fun t => t.next_run) = some 15 ∧
    (get_task_status collideS2 "job_5").map (fun t => t.next_run) = some 25 ∧
    collideS2.tasks.length = 1 ∧
    (list_tasks collideS2).length = 1 ∧
    ∀ snap ∈ list_tasks collideS2, snap.map (fun t => t.next_run) = some 25 := by
  refine ⟨rfl, rfl, ?_, ?_, rfl, rfl, ?_⟩
  · norm_num [get_task_status, SchedState.getTask, collideS1, toSnapshot, List.find?]
  · norm_num [get_task_status, SchedState.getTask, collideS2, toSnapshot, List.find?]
  · intro snap hsnap
    simp only [list_tasks, collideS2, List.map, List.mem_singleton] at hsnap
    subst hsnap
    norm_num [get_task_status, SchedState.getTask, toSnapshot, List.find?]

/-- Witness instantiating C10's listing conjunct at the surviving record. -/
theorem job_id_collision_witness :
    (get_task_status collideS2 "job_5").map (fun t => t.next_run) = some 25 :=
  job_id_collision.2.2.2.2.2.2 (get_task_status collideS2 "job_5")
    (by simp [list_tasks, collideS2])

/-- Lookup after an in-place update of the task stored under the same id. -/
theorem getTask_updateTask (id : String) (f : ScheduledTask → ScheduledTask)
    (l : List (String × ScheduledTask)) (q : List (TaskPriority × String)) (a : ℤ) :
    SchedState.getTask ⟨updateTask id f l, q, a⟩ id =
      (SchedState.getTask ⟨l, q, a⟩ id).map f := by
  induction l with
  | nil => rfl
  | cons kv rest ih =>
    obtain ⟨k, v⟩ := kv
    by_cases hk : k = id
    · subst hk
      simp [SchedState.getTask, updateTask, List.find?]
    · have hkb : (k == id) = false := by simp [hk]
      simpa [SchedState.getTask, updateTask, List.find?, hkb] using ih

/-- Pending job whose record the colliding trace starts from. -/
def cxT0 : ScheduledTask :=
  { id := "job_0", name := "job", schedule := "5s", priority := .normal,
    status := .pending, created_at := 0, next_run := 0 + ((5 : ℤ) : ℚ) * 1 }

/-- Scheduler state holding exactly the job just scheduled. -/
def cxS1 : SchedState := ⟨[("job_0", cxT0)], [], 0⟩

/-- Scheduler state after the dispatch scan queued the due job. -/
def cxS2 : SchedState :=
  ⟨[("job_0", { cxT0 with status := .running })], [(.normal, "job_0")], 1⟩

/-- Scheduler state after the queued job was cancelled. -/
def cxS3 : SchedState :=
  ⟨[("job_0", { cxT0 with status := .cancelled })], [(.normal, "job_0")], 1⟩

/-- Counterexample to C6: schedule a job, dispatch it (Running, queued),
cancel it (Cancelled), then let the worker that dequeues it execute it —
the worker overwrites the Cancelled status with Completed, so Cancelled is
not terminal. -/
theorem cancelled_not_terminal_counterexample :
    schedule_task SchedState.init "job" "5s" .normal 0 = .ok ("job_0", cxS1) ∧
    dispatch_scan cxS1 5 = cxS2 ∧
    cancel_task cxS2 "job_0" = (true, cxS3) ∧
    ((cxS3.getTask "job_0").map (fun t => t.status) = some .cancelled) ∧
    (((worker_exec cxS3 .normal "job_0" (.ok (PyVal.dict [])) 6).getTask "job_0").map
      (fun t => t.status) = some .completed) := by
  refine ⟨rfl, ?_, rfl, rfl, ?_⟩
  · norm_num [dispatch_scan, cxS1, cxS2, cxT0, dueAt]
  · have hmem : (TaskPriority.normal, "job_0") ∈ cxS3.queued := by simp [cxS3]
    have ht : cxS3.getTask "job_0" = some { cxT0 with status := .cancelled } := rfl
    simp only [worker_exec, if_pos hmem]
    rw [getTask_updateTask]
    simp only [cxS3, SchedState.getTask, List.find?, beq_self_eq_true, Option.map_some]
    simp [execute_task, cxT0, parse_schedule, parsePyInt, digitsToNat, unitSeconds]

/-- C6 (amended): cancel_task marks a stored job Cancelled from any current
status (not only Pending/Running) and reports true; a Cancelled job is
inert to the dispatch scan (its record survives unchanged and only Pending
jobs are newly enqueued); but cancellation is status-only: a worker that
already holds the job's queue entry still executes it and overwrites the
Cancelled status with the execution outcome. -/
theorem cancelled_status_amended :
    (∀ (s : SchedState) (id : String) (t : ScheduledTask),
      s.getTask id = some t →
      (cancel_task s id).1 = true ∧
      (cancel_task s id).2.getTask id = some { t with status := .cancelled }) ∧
    (∀ (s : SchedState) (now : ℚ) (kv : String × ScheduledTask),
      kv ∈ s.tasks → kv.2.status = .cancelled →
      kv ∈ (dispatch_scan s now).tasks ∧
      ∀ q ∈ (dispatch_scan s now).queued, q ∈ s.queued ∨
        ∃ kv2 ∈ s.tasks, kv2.2.status = .pending ∧ q = (kv2.2.priority, kv2.1)) ∧
    (∀ (s : SchedState) (p : TaskPriority) (id : String) (t : ScheduledTask)
       (outcome : Except String PyVal) (tEnd : ℚ),
      (p, id) ∈ s.queued → s.getTask id = some t → t.status = .cancelled →
      (worker_exec s p id outcome tEnd).getTask id =
        some (execute_task t outcome tEnd)) := by
  refine ⟨?_, ?_, ?_⟩
  · intro s id t hget
    have hc : cancel_task s id =
        (true, { s with tasks := (updateTask id
          (fun t => { t with status := .cancelled }) s.tasks) }) := by
      simp [cancel_task, hget]
    rw [hc]
    refine ⟨rfl, ?_⟩
    show SchedState.getTask ⟨updateTask id _ s.tasks, s.queued, s.active_tasks⟩ id = _
    rw [getTask_updateTask]
    obtain ⟨tasks, queued, active⟩ := s
    rw [show SchedState.getTask ⟨tasks, queued, active⟩ id = some t from hget]
    rfl
  · intro s now kv hmem hcanc
    have hnd : dueAt now kv.2 = false := by simp [dueAt, hcanc]
    exact ⟨dispatch_keeps_not_due s now kv hmem hnd, queued_provenance s now⟩
  · intro s p id t outcome tEnd hq hget _
    simp only [worker_exec, if_pos hq]
    show SchedState.getTask ⟨updateTask id _ s.tasks, _, _⟩ id = _
    rw [getTask_updateTask]
    have h3 : SchedState.getTask ⟨s.tasks, s.queued.erase (p, id), s.active_tasks - 1⟩ id
        = some t := hget
    rw [h3]
    rfl

/-- Cancelled job fixture for the amended-C6 witness. -/
def cancTask : ScheduledTask :=
  { id := "c", name := "c", schedule := "5s", priority := .normal,
    status := .cancelled, created_at := 0, next_run := 0 }

/-- Witness for C6's amended statement: cancelling an already-Failed job,
dispatch inertness of a Cancelled job, and a worker overwriting a queued
Cancelled job. -/
theorem cancelled_status_amended_witness :
    (cancel_task ⟨[("f", failedTask)], [], 0⟩ "f").1 = true ∧
    (cancel_task ⟨[("f", failedTask)], [], 0⟩ "f").2.getTask "f" =
      some { failedTask with status := .cancelled } ∧
    ("c", cancTask) ∈ (dispatch_scan ⟨[("c", cancTask)], [], 0⟩ 9).tasks ∧
    (worker_exec ⟨[("c", cancTask)], [(.normal, "c")], 1⟩ .normal "c"
        (.ok (PyVal.dict [])) 6).getTask "c" =
      some (execute_task cancTask (.ok (PyVal.dict [])) 6) := by
  have h := cancelled_status_amended
  have h1 := h.1 ⟨[("f", failedTask)], [], 0⟩ "f" failedTask rfl
  have h2 := h.2.1 ⟨[("c", cancTask)], [], 0⟩ 9 ("c", cancTask) (by simp) rfl
  have h3 := h.2.2 ⟨[("c", cancTask)], [(.normal, "c")], 1⟩ .normal "c" cancTask
    (.ok (PyVal.dict [])) 6 (by simp) rfl rfl
  exact ⟨h1.1, h1.2, h2.1, h3⟩

/-- Observable skeleton of an agent for the fan-out proof: name, enabled
flag and behaviour (everything execute_agent cannot change). -/
def agentGk (a : Agent) : String × Bool × AgentBehavior :=
  (a.base.name, a.base.enabled, a.behavior)

/-- Skeleton of a registry entry: key plus agent skeleton. -/
def agentSk (kv : String × Agent) : String × String × Bool × AgentBehavior :=
  (kv.1, agentGk kv.2)

/-- BaseAgent.execute never changes a unit's name or enabled flag. -/
theorem execute_keeps_name_enabled (beh : AgentBehavior) (a : BaseAgent)
    (ctx : AgentContext) (t0 dur : ℚ) :
    (BaseAgent.execute beh a ctx t0 dur).2.name = a.name ∧
    (BaseAgent.execute beh a ctx t0 dur).2.enabled = a.enabled := by
  cases hen : a.enabled with
  | false => simp [BaseAgent.execute, hen]
  | true =>
    cases ha : beh.analyze ctx with
    | error e => simp [BaseAgent.execute, hen, ha]
    | ok r1 =>
      cases ho : beh.optimize ctx with
      | error e => simp [BaseAgent.execute, hen, ha, ho]
      | ok r2 =>
        simp [BaseAgent.execute, hen, ha, ho, BaseAgent.update_performance_metrics]

/-- Updating the stored agent under a key with a skeleton-preserving
function leaves the registry's skeleton unchanged. -/
theorem updateAgent_skel (n : String) (f : Agent → Agent) :
    ∀ (l : List (String × Agent)) (ag : Agent),
      AgentRegistry.get_agent ⟨l⟩ n = some ag →
      agentGk (f ag) = agentGk ag →
      (updateAgent n f l).map agentSk = l.map agentSk := by
  intro l
  induction l with
  | nil => intro ag h _; simp [AgentRegistry.get_agent] at h
  | cons kv rest ih =>
    intro ag hget hf
    obtain ⟨k, v⟩ := kv
    by_cases hk : k = n
    · have hv : v = ag := by
        have : AgentRegistry.get_agent ⟨(k, v) :: rest⟩ n = some v := by
          simp [AgentRegistry.get_agent, List.find?, hk]
        rw [this] at hget
        exact Option.some.inj hget
      subst hv
      simp [updateAgent, hk, agentSk, hf]
    · have hkb : (k == n) = false := by simp [hk]
      have hget' : AgentRegistry.get_agent ⟨rest⟩ n = some ag := by
        simpa [AgentRegistry.get_agent, List.find?, hkb] using hget
      simpa [updateAgent, hkb] using ih ag hget' hf

/-- Two registries with the same skeleton agree on every lookup up to the
skeleton projection. -/
theorem skel_get_agent :
    ∀ (l1 l2 : List (String × Agent)),
      l1.map agentSk = l2.map agentSk → ∀ n : String,
      (AgentRegistry.get_agent ⟨l1⟩ n).map agentGk =
        (AgentRegistry.get_agent ⟨l2⟩ n).map agentGk := by
  intro l1
  induction l1 with
  | nil =>
    intro l2 h n
    have : l2 = [] := List.map_eq_nil_iff.mp h.symm
    subst this
    rfl
  | cons kv rest ih =>
    intro l2 h n
    cases l2 with
    | nil => simp at h
    | cons kv2 rest2 =>
      simp only [List.map_cons, List.cons.injEq] at h
      obtain ⟨hhead, htail⟩ := h
      have hh := hhead
      simp only [agentSk, Prod.mk.injEq] at hh
      obtain ⟨hkey, hgk⟩ := hh
      by_cases hk : kv.1 = n
      · have hk2 : kv2.1 = n := hkey ▸ hk
        simp [AgentRegistry.get_agent, List.find?, hk, hk2, hgk]
      · have hk2 : ¬ (kv2.1 = n) := hkey ▸ hk
        have hkb : (kv.1 == n) = false := by simp [hk]
        have hk2b : (kv2.1 == n) = false := by simp [hk2]
        simpa [AgentRegistry.get_agent, List.find?, hkb, hk2b] using ih rest2 htail n

/-- Required-key check the registry's validation amounts to: neither
`infrastructure` nor `metrics` maps explicitly to None. -/
def contextOk (cd : List (String × PyVal)) : Bool :=
  !(pyGetD cd "infrastructure").isNone && !(pyGetD cd "metrics").isNone

/-- The context built by the registry validates exactly when `contextOk`
holds of the raw dict (execution_id is always a string). -/
theorem validate_mkContext (n : String) (cd : List (String × PyVal)) (now : ℚ) :
    BaseAgent.validate_context (mkContext n cd now) = contextOk cd := by
  simp [BaseAgent.validate_context, mkContext, contextOk, PyVal.isNone]

/-- One execute_agent call leaves the registry's skeleton (keys, names,
enabled flags, behaviours) unchanged. -/
theorem execute_agent_skel (reg : AgentRegistry) (n : String)
    (cd : List (String × PyVal)) (now d : ℚ) :
    (reg.execute_agent n cd now d).2.agents.map agentSk = reg.agents.map agentSk := by
  cases hget : reg.get_agent n with
  | none => simp [AgentRegistry.execute_agent, hget]
  | some ag =>
    cases hen : ag.base.enabled with
    | false => simp [AgentRegistry.execute_agent, hget, hen]
    | true =>
      cases hv : BaseAgent.validate_context (mkContext n cd now) with
      | false => simp [AgentRegistry.execute_agent, hget, hen, hv]
      | true =>
        have hexec : (reg.execute_agent n cd now d).2 =
            ⟨updateAgent n (fun a => { a with
              base := (BaseAgent.execute ag.behavior ag.base (mkContext n cd now) now d).2 })
              reg.agents⟩ := by
          simp [AgentRegistry.execute_agent, hget, hen, hv]
        rw [hexec]
        have hkeep := execute_keeps_name_enabled ag.behavior ag.base (mkContext n cd now) now d
        exact updateAgent_skel n _ reg.agents ag hget (by simp [agentGk, hkeep.1, hkeep.2])

/-- Behaviour whose two phases always return successful results. -/
def succeedsOn (beh : AgentBehavior) : Prop :=
  ∀ ctx, ∃ r1 r2, beh.analyze ctx = .ok r1 ∧ r1.success = true ∧
    beh.optimize ctx = .ok r2 ∧ r2.success = true

/-- Behaviour whose analyze phase always raises. -/
def analyzeFaults (beh : AgentBehavior) : Prop :=
  ∀ ctx, ∃ e, beh.analyze ctx = .error e

/-- An enabled, validated agent with an always-succeeding behaviour yields
a success result through execute_agent. -/
theorem execute_agent_success (reg : AgentRegistry) (n : String)
    (cd : List (String × PyVal)) (now d : ℚ) (ag : Agent)
    (hget : reg.get_agent n = some ag) (hen : ag.base.enabled = true)
    (hcd : contextOk cd = true) (hs : succeedsOn ag.behavior) :
    (reg.execute_agent n cd now d).1.success = true := by
  obtain ⟨r1, r2, h1, hs1, h2, hs2⟩ := hs (mkContext n cd now)
  have hv : BaseAgent.validate_context (mkContext n cd now) = true :=
    (validate_mkContext n cd now).trans hcd
  simp [AgentRegistry.execute_agent, hget, hen, hv, BaseAgent.execute, h1, h2, hs1, hs2]

/-- An enabled, validated agent whose analyze always raises yields a failed
result through execute_agent. -/
theorem execute_agent_fault (reg : AgentRegistry) (n : String)
    (cd : List (String × PyVal)) (now d : ℚ) (ag : Agent)
    (hget : reg.get_agent n = some ag) (hen : ag.base.enabled = true)
    (hcd : contextOk cd = true) (hf : analyzeFaults ag.behavior) :
    (reg.execute_agent n cd now d).1.success = false := by
  obtain ⟨e, he⟩ := hf (mkContext n cd now)
  have hv : BaseAgent.validate_context (mkContext n cd now) = true :=
    (validate_mkContext n cd now).trans hcd
  simp [AgentRegistry.execute_agent, hget, hen, hv, BaseAgent.execute, he]

/-- With unique keys (a Python dict invariant), every stored entry is what
lookup by its key returns. -/
theorem get_agent_of_mem_nodup :
    ∀ (l : List (String × Agent)), (l.map Prod.fst).Nodup →
      ∀ kv ∈ l, AgentRegistry.get_agent ⟨l⟩ kv.1 = some kv.2 := by
  intro l
  induction l with
  | nil => intro _ kv h; simp at h
  | cons hd tl ih =>
    intro hnd kv hmem
    rcases List.mem_cons.mp hmem with h | h
    · subst h
      simp [AgentRegistry.get_agent, List.find?]
    · rw [List.map_cons] at hnd
      have hnd2 := List.nodup_cons.mp hnd
      have hne : hd.1 ≠ kv.1 := by
        intro heq
        exact hnd2.1 (heq ▸ List.mem_map_of_mem Prod.fst h)
      have hkb : (hd.1 == kv.1) = false := by simp [hne]
      simpa [AgentRegistry.get_agent, List.find?, hkb] using ih hnd2.2 kv h

/-- Fan-out invariant: running execAllGo over a snapshot of agents that the
base registry resolves, with exactly the faulting agent named `w`, yields
one entry per snapshot element, successful everywhere except at `w`. -/
theorem execAllGo_spec (cd : List (String × PyVal)) (now : ℚ) (dur : String → ℚ)
    (w : String) (reg0 : AgentRegistry) (hcd : contextOk cd = true) :
    ∀ (ags : List Agent) (reg : AgentRegistry),
      reg.agents.map agentSk = reg0.agents.map agentSk →
      (∀ ag ∈ ags, reg0.get_agent ag.base.name = some ag ∧ ag.base.enabled = true ∧
        (ag.base.name ≠ w → succeedsOn ag.behavior) ∧
        (ag.base.name = w → analyzeFaults ag.behavior)) →
      ((execAllGo cd now dur ags reg).1.map Prod.fst =
        ags.map (fun a => a.base.name)) ∧
      (∀ p ∈ (execAllGo cd now dur ags reg).1, p.1 ≠ w → p.2.success = true) ∧
      (∀ p ∈ (execAllGo cd now dur ags reg).1, p.1 = w → p.2.success = false) := by
  intro ags
  induction ags with
  | nil =>
    intro reg _ _
    exact ⟨rfl, by simp [execAllGo], by simp [execAllGo]⟩
  | cons ag rest ih =>
    intro reg hskel hprop
    obtain ⟨hget0, hen, hsucc, hfault⟩ := hprop ag (by simp)
    have hmap := skel_get_agent reg.agents reg0.agents hskel ag.base.name
    rw [hget0] at hmap
    cases hga : reg.get_agent ag.base.name with
    | none => rw [hga] at hmap; simp at hmap
    | some ag2 =>
      rw [hga] at hmap
      have hgk : agentGk ag2 = agentGk ag := by simpa using hmap
      have hen2 : ag2.base.enabled = true := by
        have h2 := congrArg (fun x => x.2.1) hgk
        simpa [agentGk] using h2.trans (by simp [agentGk, hen])
      have hbeh2 : ag2.behavior = ag.behavior := congrArg (fun x => x.2.2) hgk
      have hskel2 : (reg.execute_agent ag.base.name cd now (dur ag.base.name)).2.agents.map
          agentSk = reg0.agents.map agentSk :=
        (execute_agent_skel reg ag.base.name cd now (dur ag.base.name)).trans hskel
      have hrest := ih (reg.execute_agent ag.base.name cd now (dur ag.base.name)).2
        hskel2 (fun a ha => hprop a (by simp [ha]))
      refine ⟨?_, ?_, ?_⟩
      · simp only [execAllGo, List.map_cons]
        exact congrArg (List.cons ag.base.name) hrest.1
      · intro p hp hne
        simp only [execAllGo, List.mem_cons] at hp
        rcases hp with hp | hp
        · subst hp
          have hs : succeedsOn ag2.behavior := hbeh2 ▸ hsucc hne
          exact execute_agent_success reg ag.base.name cd now (dur ag.base.name) ag2
            hga hen2 hcd hs
        · exact hrest.2.1 p hp hne
      · intro p hp heq
        simp only [execAllGo, List.mem_cons] at hp
        rcases hp with hp | hp
        · subst hp
          have hf : analyzeFaults ag2.behavior := hbeh2 ▸ hfault heq
          exact execute_agent_fault reg ag.base.name cd now (dur ag.base.name) ag2
            hga hen2 hcd hf
        · exact hrest.2.2 p hp heq

/-- One output entry is appended per snapshot agent, unconditionally: no
context validity or behaviour assumption is needed for the shape of the
result map. -/
theorem execAllGo_keys (cd : List (String × PyVal)) (now : ℚ) (dur : String → ℚ) :
    ∀ (ags : List Agent) (reg : AgentRegistry),
      (execAllGo cd now dur ags reg).1.map Prod.fst =
        ags.map (fun a => a.base.name)
  | [], _ => rfl
  | ag :: rest, reg => by
    simp only [execAllGo, List.map_cons]
    exact congrArg (List.cons ag.base.name)
      (execAllGo_keys cd now dur rest
        (reg.execute_agent ag.base.name cd now (dur ag.base.name)).2)

/-- C1: for every call to execute_all_agents with any context, the
returned map has exactly one entry per agent enabled at call time — its
keys are the enabled agents' names in registry order and its length is the
number of enabled agents — regardless of how many individual executions
failed; when the registry keys are the agents' names (the dict invariant
the registry maintains), those keys are exactly the enabled entries' keys;
and in the scenario where exactly the agent named w always faults in
analyze while every other enabled agent succeeds on a validating context,
the non-w entries report success:true and the w entry success:false — one
agent's fault never aborts a sibling's execution. -/
theorem execute_all_fault_isolation :
    (∀ (reg : AgentRegistry) (cd : List (String × PyVal)) (now : ℚ)
       (dur : String → ℚ),
      ((reg.execute_all_agents cd now dur).1.map Prod.fst =
        reg.list_enabled_agents.map (fun a => a.base.name)) ∧
      (reg.execute_all_agents cd now dur).1.length =
        reg.list_enabled_agents.length) ∧
    (∀ (reg : AgentRegistry) (cd : List (String × PyVal)) (now : ℚ)
       (dur : String → ℚ),
      (∀ kv ∈ reg.agents, kv.2.base.name = kv.1) →
      (reg.execute_all_agents cd now dur).1.map Prod.fst =
        (reg.agents.filter (fun kv => kv.2.base.enabled)).map Prod.fst) ∧
    (∀ (reg : AgentRegistry) (cd : List (String × PyVal)) (now : ℚ)
       (dur : String → ℚ) (w : String),
      (reg.agents.map Prod.fst).Nodup →
      (∀ kv ∈ reg.agents, kv.2.base.name = kv.1) →
      contextOk cd = true →
      (∀ kv ∈ reg.agents, kv.2.base.enabled = true → kv.1 ≠ w →
        succeedsOn kv.2.behavior) →
      (∀ kv ∈ reg.agents, kv.1 = w → analyzeFaults kv.2.behavior) →
      (∀ p ∈ (reg.execute_all_agents cd now dur).1,
        p.1 ≠ w → p.2.success = true) ∧
      (∀ p ∈ (reg.execute_all_agents cd now dur).1,
        p.1 = w → p.2.success = false)) := by
  refine ⟨?_, ?_, ?_⟩
  · intro reg cd now dur
    have hk : (reg.execute_all_agents cd now dur).1.map Prod.fst =
        reg.list_enabled_agents.map (fun a => a.base.name) :=
      execAllGo_keys cd now dur reg.list_enabled_agents reg
    refine ⟨hk, ?_⟩
    have hlen := congrArg List.length hk
    simpa [List.length_map] using hlen
  · intro reg cd now dur hnames
    have hk : (reg.execute_all_agents cd now dur).1.map Prod.fst =
        reg.list_enabled_agents.map (fun a => a.base.name) :=
      execAllGo_keys cd now dur reg.list_enabled_agents reg
    rw [hk]
    simp only [AgentRegistry.list_enabled_agents, List.map_map]
    apply List.map_congr_left
    intro kv hkv
    exact hnames kv (List.mem_filter.mp hkv).1
  · intro reg cd now dur w hkeys hnames hcd hok hw
    have hsnap : ∀ ag ∈ reg.list_enabled_agents,
        reg.get_agent ag.base.name = some ag ∧ ag.base.enabled = true ∧
        (ag.base.name ≠ w → succeedsOn ag.behavior) ∧
        (ag.base.name = w → analyzeFaults ag.behavior) := by
      intro ag hag
      simp only [AgentRegistry.list_enabled_agents, List.mem_map,
        List.mem_filter] at hag
      obtain ⟨kv, ⟨hmem, henb⟩, hkv⟩ := hag
      subst hkv
      have hkey : kv.2.base.name = kv.1 := hnames kv hmem
      refine ⟨?_, henb, ?_, ?_⟩
      · rw [hkey]
        exact get_agent_of_mem_nodup reg.agents hkeys kv hmem
      · intro hne
        exact hok kv hmem henb (hkey ▸ hne)
      · intro heq
        exact hw kv hmem (hkey ▸ heq)
    have h := execAllGo_spec cd now dur w reg hcd reg.list_enabled_agents reg rfl hsnap
    exact ⟨h.2.1, h.2.2⟩

/-- Three-agent registry in which only the agent named w faults. -/
def regW : AgentRegistry :=
  ⟨[("a", ⟨BaseAgent.init "a", okBehavior⟩),
    ("w", ⟨BaseAgent.init "w", faultBehavior⟩),
    ("b", ⟨BaseAgent.init "b", okBehavior⟩)]⟩

/-- Witness for C1 on the three-agent registry: one entry per enabled
agent also on an invalid context where every execution fails, and the
fault-isolation scenario with two healthy agents and one faulting one. -/
theorem execute_all_fault_isolation_witness :
    ((regW.execute_all_agents [] 0 (fun _ => 1)).1.map Prod.fst =
      regW.list_enabled_agents.map (fun a => a.base.name)) ∧
    ((regW.execute_all_agents [("infrastructure", PyVal.none)] 0
        (fun _ => 1)).1.length = regW.list_enabled_agents.length) ∧
    ((regW.execute_all_agents [] 0 (fun _ => 1)).1.map Prod.fst =
      (regW.agents.filter (fun kv => kv.2.base.enabled)).map Prod.fst) ∧
    (∀ p ∈ (regW.execute_all_agents [] 0 (fun _ => 1)).1,
      p.1 ≠ "w" → p.2.success = true) ∧
    (∀ p ∈ (regW.execute_all_agents [] 0 (fun _ => 1)).1,
      p.1 = "w" → p.2.success = false) := by
  have h := execute_all_fault_isolation
  have hnames : ∀ kv ∈ regW.agents, kv.2.base.name = kv.1 := by
    intro kv hm
    simp only [regW, List.mem_cons, List.not_mem_nil, or_false] at hm
    rcases hm with hm | hm | hm <;> subst hm <;> rfl
  have h3 := h.2.2 regW [] 0 (fun _ => 1) "w"
    (by simp [regW])
    hnames
    rfl
    (by
      intro kv hm _ hne
      simp only [regW, List.mem_cons, List.not_mem_nil, or_false] at hm
      rcases hm with hm | hm | hm <;> subst hm
      · exact fun ctx => ⟨trivialResult, trivialResult, rfl, rfl, rfl, rfl⟩
      · exact absurd rfl hne
      · exact fun ctx => ⟨trivialResult, trivialResult, rfl, rfl, rfl, rfl⟩)
    (by
      intro kv hm heq
      simp only [regW, List.mem_cons, List.not_mem_nil, or_false] at hm
      rcases hm with hm | hm | hm <;> subst hm
      · exact absurd heq (by decide)
      · exact fun ctx => ⟨"boom", rfl⟩
      · exact absurd heq (by decide))
  exact ⟨(h.1 regW [] 0 (fun _ => 1)).1,
    (h.1 regW [("infrastructure", PyVal.none)] 0 (fun _ => 1)).2,
    h.2.1 regW [] 0 (fun _ => 1) hnames,
    h3.1, h3.2⟩
